import Mathlib

/-!
Shallow embedding of the team-invite service (Deno/Oak, `team.ts`).

The service keeps team credential records in a Deno KV store under the
`["teams", id]` prefix and exposes HTTP routes for listing, adding and
deleting teams and for dispatching invite requests through an upstream
REST endpoint.

Modelling choices:
* The KV store state is an association list `Store` from the string key
  (the second component of the Deno KV key `["teams", id]`) to the stored
  `Team` value.  `Deno.Kv.list` enumerates entries in key order, so the
  embedding sorts the association list by key before reading the values.
* `crypto.randomUUID()` is nondeterministic; every operation that may call
  it takes the generated string as an explicit `freshId` parameter.
* `Deno.env.get` is modelled by an `Env` structure of two `Option String`
  values; a JavaScript string is truthy iff it is present and non-empty.
* The outbound `fetch` in `sendInvitesApi` is modelled by a `FetchOutcome`
  parameter: either a completed HTTP response (status, error-body text,
  parsed JSON data) or a thrown exception carrying a message (this branch
  also covers a `response.json()` parse failure, which the `catch` block
  treats identically).
* JavaScript `a.name.localeCompare(b.name)` is modelled as code-point
  lexicographic comparison (`strLe`); the properties proved use only that
  it is a total preorder with `""` minimal, which holds for
  `localeCompare` in every locale.
* `Array.prototype.sort` with a consistent comparator is required by the
  ECMAScript specification to produce a stable sorted permutation; a
  stable sort is a unique function of its input, so it is modelled by the
  stable `List.insertionSort`.
-/

/-- Lexicographic code-point comparison of two character lists. -/
def charListLe : List Char → List Char → Bool
  | [], _ => true
  | _ :: _, [] => false
  | a :: as, b :: bs =>
    if a < b then true else if b < a then false else charListLe as bs

/-- `a.localeCompare(b) <= 0`, modelled as code-point order. -/
def strLe (a b : String) : Bool := charListLe a.data b.data

/-- The `Team` interface: `token` and `accountId` are required, `name` and
`id` are optional fields. -/
structure Team where
  token : String
  accountId : String
  name : Option String := none
  id : Option String := none
deriving DecidableEq, Repr

/-- State of the Deno KV store restricted to the `["teams", _]` prefix:
an association list from the key's second component to the stored value. -/
abbrev Store := List (String × Team)

/-- Environment: the two values read via `Deno.env.get`. -/
structure Env where
  chatgptToken : Option String := none
  chatgptAccountId : Option String := none
deriving DecidableEq, Repr

/-- JavaScript truthiness of a `string | undefined` value: truthy iff
present and non-empty. -/
def truthyS : Option String → Bool
  | none => false
  | some s => !(s == "")

/-- JavaScript `x || d` for a `string | undefined` value `x` and a string
default `d`. -/
def jsOrStr (x : Option String) (d : String) : String :=
  match x with
  | none => d
  | some s => if s == "" then d else s

/-- JavaScript `x || d` for a `number | undefined` value `x` (`0` is
falsy). -/
def jsOrNat (x : Option Nat) (d : Nat) : Nat :=
  match x with
  | none => d
  | some n => if n == 0 then d else n

/-- Sort key used by `loadTeams`: `a.name || ""`. -/
def nameKey (t : Team) : String := jsOrStr t.name ""

/-- Boolean comparator on teams induced by `(a.name || "").localeCompare(b.name || "")`:
`a` may precede `b` iff the comparator is ≤ 0. -/
def nameLe (a b : Team) : Bool := strLe (nameKey a) (nameKey b)

/-- Boolean comparator on KV entries by key, modelling the key order in
which `Deno.Kv.list` enumerates entries. -/
def keyLe (a b : String × Team) : Bool := strLe a.1 b.1

/-- The entries `kv.list({prefix: ["teams"]})` yields, in key order. -/
def kvEntries (st : Store) : List (String × Team) :=
  List.insertionSort (fun a b => keyLe a b = true) st

/-- `kv.set(["teams", k], v)`: create-or-replace the entry at key `k`. -/
def kvSet (k : String) (v : Team) (st : Store) : Store :=
  if st.any (fun e => e.1 == k) then
    st.map (fun e => if e.1 == k then (k, v) else e)
  else
    st ++ [(k, v)]

/-- `kv.delete(["teams", k])`: remove the entry at key `k` if present. -/
def kvDelete (k : String) (st : Store) : Store :=
  st.filter (fun e => !(e.1 == k))

/-- `loadTeams()`: collect the values under the `["teams"]` prefix and sort
them by `(a.name || "").localeCompare(b.name || "")`. -/
def loadTeams (st : Store) : List Team :=
  List.insertionSort (fun a b => nameLe a b = true) ((kvEntries st).map Prod.snd)

/-- `saveTeam(team)`: assign `team.id = crypto.randomUUID()` when `!team.id`
(absent or empty), then `kv.set(["teams", team.id], team)`.  Returns the
(mutated) team together with the new store state; `freshId` stands for the
generated UUID. -/
def saveTeam (freshId : String) (team : Team) (st : Store) : Team × Store :=
  let t := if truthyS team.id then team else { team with id := some freshId }
  (t, kvSet (jsOrStr t.id "") t st)

/-- `deleteTeam(id)`: `kv.delete(["teams", id])`. -/
def deleteTeam (id : String) (st : Store) : Store :=
  kvDelete id st

/-- The synthetic environment-fallback record built by `getAllConfigs` from
`CHATGPT_TOKEN` and `CHATGPT_ACCOUNT_ID`. -/
def fallbackRecord (env : Env) : Team :=
  { token := (env.chatgptToken).getD ""
    accountId := (env.chatgptAccountId).getD ""
    name := some "Default Env/Global"
    id := some "default" }

/-- `getAllConfigs()`: the stored teams, or, when none are stored and both
environment values are truthy, the single fallback record. -/
def getAllConfigs (env : Env) (st : Store) : List Team :=
  let teams := loadTeams st
  if teams.length == 0 then
    if truthyS env.chatgptToken && truthyS env.chatgptAccountId then
      [fallbackRecord env]
    else
      teams
  else
    teams

/-- Result value of `sendInvitesApi` when it returns (does not throw):
`{success:true, data}` or `{success:false, statusCode, error}`. -/
inductive SendResult where
  | ok (data : String)
  | failed (statusCode : Nat) (error : String)
deriving DecidableEq, Repr

/-- The `success` field of a `sendInvitesApi` result. -/
def SendResult.success : SendResult → Bool
  | .ok _ => true
  | .failed _ _ => false

/-- The `statusCode` field of a `sendInvitesApi` result (`undefined` on the
success shape). -/
def SendResult.statusCode : SendResult → Option Nat
  | .ok _ => none
  | .failed sc _ => some sc

/-- Behaviour of the upstream `fetch` inside `sendInvitesApi`: either the
call completed with an HTTP response (its status, its body as text for the
error path and as parsed JSON data for the success path), or the call (or
response handling) threw an exception with the given message. -/
inductive FetchOutcome where
  | resp (status : Nat) (text : String) (data : String)
  | thrown (message : String)
deriving DecidableEq, Repr

/-- `Response.ok` of the Fetch API: status in the range 200–299. -/
def responseOk (status : Nat) : Bool :=
  200 ≤ status && status ≤ 299

/-- The outbound HTTP request `sendInvitesApi` issues (observable effect of
a dispatch). -/
structure OutboundCall where
  emails : List String
  role : String
  resend : Bool
  token : String
  accountId : String
deriving DecidableEq, Repr

/-- `sendInvitesApi(emails, role, resend, token, accountId)`: on a completed
response, return `{success:true, data}` when `response.ok`, else the
non-throwing `{success:false, statusCode, error: text}`; on a thrown
exception, the `catch` block re-throws it (`Except.error`). -/
def sendInvitesApi (emails : List String) (role : String) (resend : Bool)
    (token accountId : String) (outcome : FetchOutcome) :
    Except String SendResult × OutboundCall :=
  (match outcome with
   | .resp status text data =>
     if responseOk status then .ok (.ok data) else .ok (.failed status text)
   | .thrown message => .error message,
   { emails := emails, role := role, resend := resend
     token := token, accountId := accountId })

/-- Shapes of the JSON bodies the routes produce. -/
inductive ResBody where
  | empty
  | errMsg (error : String)
  | inviteResult (success : Bool) (team : Option String) (details : SendResult)
  | inviteError (team : Option String) (error : String)
  | teamCreated (team : Team)
  | deleteOk
  | teamsList (teams : List Team)
deriving DecidableEq, Repr

/-- An HTTP response: status code and JSON body. -/
structure Response where
  status : Nat
  body : ResBody
deriving DecidableEq, Repr

/-- The `emails` field of a JSON request body: absent/falsy, present but not
an array, or an array of strings. -/
inductive EmailsVal where
  | absent
  | nonArray
  | arr (l : List String)
deriving DecidableEq, Repr

/-- The guard `!emails || !Array.isArray(emails) || emails.length === 0`. -/
def emailsInvalid : EmailsVal → Bool
  | .arr l => l.isEmpty
  | _ => true

/-- The email list once the guard has passed. -/
def emailsList : EmailsVal → List String
  | .arr l => l
  | _ => []

/-- Request body of `POST /api/invite`. -/
structure InviteBody where
  emails : EmailsVal := .absent
  role : Option String := none
  resend : Option Bool := none
  teamId : Option String := none
deriving DecidableEq, Repr

/-- `configs.find(t => t.id === teamId) || (configs.length === 1 ? configs[0] : null)`.
`===` between two `string | undefined` values is `Option` equality
(`undefined === undefined` is `true`). -/
def resolveConfig (configs : List Team) (teamId : Option String) : Option Team :=
  match configs.find? (fun t => t.id == teamId) with
  | some t => some t
  | none => if configs.length == 1 then configs.head? else none

/-- The `POST /api/invite` handler.  Returns the HTTP response together with
the outbound call made, or `none` when the handler returns before invoking
`sendInvitesApi`. -/
def postInvite (body : InviteBody) (env : Env) (st : Store)
    (outcome : FetchOutcome) : Response × Option OutboundCall :=
  let role := jsOrStr body.role "reader"
  let resend := (body.resend).getD false
  if emailsInvalid body.emails then
    (⟨400, .errMsg "Emails array is required"⟩, none)
  else
    let emails := emailsList body.emails
    let configs := getAllConfigs env st
    if configs.length == 0 then
      (⟨500, .errMsg "No team configuration available"⟩, none)
    else
      match resolveConfig configs body.teamId with
      | none => (⟨400, .errMsg "Invalid or missing team selection"⟩, none)
      | some config =>
        let sent := sendInvitesApi emails role resend config.token config.accountId outcome
        match sent.1 with
        | .ok result =>
          (⟨if result.success then 200 else jsOrNat result.statusCode 500,
            .inviteResult result.success config.name result⟩, some sent.2)
        | .error message =>
          (⟨500, .inviteError config.name message⟩, some sent.2)

/-- Request body of `POST /api/teams`; the handler destructures only
`token`, `accountId` and `name`, but a client may also send an `id`. -/
structure TeamBody where
  token : Option String := none
  accountId : Option String := none
  name : Option String := none
  id : Option String := none
deriving DecidableEq, Repr

/-- The `GET /api/teams` handler. -/
def getTeamsRoute (st : Store) : Response :=
  ⟨200, .teamsList (loadTeams st)⟩

/-- The `POST /api/teams` handler.  `freshId` stands for the UUID
`saveTeam` would generate.  Returns the response and the new store state. -/
def postTeams (body : TeamBody) (freshId : String) (st : Store) :
    Response × Store :=
  if !(truthyS body.token && truthyS body.accountId) then
    (⟨400, .errMsg "Token and Account ID are required"⟩, st)
  else
    let newTeam : Team :=
      { token := (body.token).getD "", accountId := (body.accountId).getD ""
        name := some (jsOrStr body.name "Team"), id := none }
    let saved := saveTeam freshId newTeam st
    (⟨201, .teamCreated saved.1⟩, saved.2)

/-- The `DELETE /api/teams/:id` handler (an Oak route sets status 200 when a
body is assigned without an explicit status). -/
def deleteTeamRoute (id : String) (st : Store) : Response × Store :=
  if id == "" then
    (⟨400, .empty⟩, st)
  else
    (⟨200, .deleteOk⟩, deleteTeam id st)

/-- Store well-formedness: every entry's value carries the entry's key as
its `id`.  `saveTeam` establishes this and it is preserved by all store
operations the program performs. -/
def StoreWF (st : Store) : Prop :=
  ∀ e ∈ st, e.2.id = some e.1

/-- The record `POST /api/teams` persists for a valid body: supplied token
and accountId, `name || "Team"`, and the generated id. -/
def mkSaved (body : TeamBody) (freshId : String) : Team :=
  { token := (body.token).getD "", accountId := (body.accountId).getD ""
    name := some (jsOrStr body.name "Team"), id := some freshId }

/-- Example team record used to evaluate the theorems on concrete data. -/
def tAlpha : Team :=
  { token := "t1", accountId := "a1", name := some "Alpha", id := some "id-alpha" }

/-- A second example team record. -/
def tBeta : Team :=
  { token := "t2", accountId := "a2", name := some "Beta", id := some "id-beta" }

/-- A store holding exactly one record. -/
def stOne : Store := [("id-alpha", tAlpha)]

/-- A store holding two records. -/
def stTwo : Store := [("id-alpha", tAlpha), ("id-beta", tBeta)]

/-- An environment with both fallback values set. -/
def envBoth : Env :=
  { chatgptToken := some "envTok", chatgptAccountId := some "envAcc" }

/-- An example valid `POST /api/teams` body. -/
def bodyEx : TeamBody :=
  { token := some "t1", accountId := some "a1", name := some "Alpha" }

lemma charListLe_trans (as : List Char) :
    ∀ bs cs, charListLe as bs = true → charListLe bs cs = true →
      charListLe as cs = true := by
  induction as with
  | nil => intro bs cs _ _; rfl
  | cons a as ih =>
    intro bs cs hab hbc
    cases bs with
    | nil => exact absurd hab (by simp [charListLe])
    | cons b bs =>
      cases cs with
      | nil => exact absurd hbc (by simp [charListLe])
      | cons c cs =>
        simp only [charListLe] at hab hbc ⊢
        by_cases h1 : a < b
        · by_cases h2 : b < c
          · simp [lt_trans h1 h2]
          · by_cases h3 : c < b
            · rw [if_neg h2, if_pos h3] at hbc
              exact absurd hbc (by simp)
            · have hbceq : b = c := le_antisymm (not_lt.mp h3) (not_lt.mp h2)
              subst hbceq
              simp [h1]
        · by_cases h1b : b < a
          · rw [if_neg h1, if_pos h1b] at hab
            exact absurd hab (by simp)
          · have habeq : a = b := le_antisymm (not_lt.mp h1b) (not_lt.mp h1)
            subst habeq
            rw [if_neg h1, if_neg h1b] at hab
            by_cases h2 : a < c
            · simp [h2]
            · by_cases h3 : c < a
              · rw [if_neg h2, if_pos h3] at hbc
                exact absurd hbc (by simp)
              · rw [if_neg h2, if_neg h3] at hbc ⊢
                exact ih bs cs hab hbc

lemma charListLe_total (as : List Char) :
    ∀ bs, (charListLe as bs || charListLe bs as) = true := by
  induction as with
  | nil => intro bs; simp [charListLe]
  | cons a as ih =>
    intro bs
    cases bs with
    | nil => simp [charListLe]
    | cons b bs =>
      simp only [charListLe]
      rcases lt_trichotomy a b with h | rfl | h
      · simp [h]
      · simpa [lt_irrefl] using ih bs
      · simp [h, lt_asymm h]

lemma nameLe_trans : ∀ a b c : Team, nameLe a b = true → nameLe b c = true →
    nameLe a c = true :=
  fun _ _ _ hab hbc => charListLe_trans _ _ _ hab hbc

lemma nameLe_total : ∀ a b : Team, (nameLe a b || nameLe b a) = true :=
  fun _ _ => charListLe_total _ _

lemma strLe_empty_left (s : String) : strLe "" s = true := rfl

lemma strLe_empty_right {s : String} (h : strLe s "" = true) : s = "" := by
  cases s with
  | mk data =>
    cases data with
    | nil => rfl
    | cons a as => exact absurd h (by simp [strLe, charListLe])

lemma mem_loadTeams {t : Team} {st : Store} :
    t ∈ loadTeams st ↔ t ∈ st.map Prod.snd := by
  unfold loadTeams kvEntries
  rw [(List.perm_insertionSort _ _).mem_iff]
  exact ((List.perm_insertionSort _ st).map Prod.snd).mem_iff

lemma mem_map_kvSet (k : String) (v : Team) (st : Store) :
    v ∈ (kvSet k v st).map Prod.snd := by
  unfold kvSet
  split
  · next h =>
    obtain ⟨e, he, hk⟩ := List.any_eq_true.mp h
    rw [List.map_map]
    refine List.mem_map.mpr ⟨e, he, ?_⟩
    simp only [beq_iff_eq] at hk
    simp [hk]
  · simp

/-- Claim C1 (fallback exclusivity): when the store holds at least one team
record, `getAllConfigs` returns exactly the stored records, whatever the
environment holds; when the store is empty it returns the fallback record
exactly when both environment values are (truthily) present, and nothing
otherwise. -/
theorem fallback_exclusivity (env : Env) (st : Store) :
    (loadTeams st ≠ [] → getAllConfigs env st = loadTeams st) ∧
    (loadTeams st = [] →
      getAllConfigs env st =
        if truthyS env.chatgptToken && truthyS env.chatgptAccountId then
          [fallbackRecord env]
        else []) := by
  cases hL : loadTeams st with
  | nil =>
    refine ⟨fun h => absurd rfl h, fun _ => ?_⟩
    simp [getAllConfigs, hL]
  | cons a l =>
    refine ⟨fun _ => ?_, fun h => absurd h (by simp)⟩
    simp [getAllConfigs, hL]

/-- Claim C4 (validation before dispatch): an absent, non-array or empty
`emails` field yields a 400 response with `{error: "Emails array is
required"}` and no outbound call, for every store and environment (the
store is never consulted on this path). -/
theorem validation_before_dispatch (body : InviteBody) (env : Env)
    (st : Store) (outcome : FetchOutcome)
    (h : emailsInvalid body.emails = true) :
    postInvite body env st outcome =
      (⟨400, .errMsg "Emails array is required"⟩, none) := by
  simp [postInvite, h]

/-- Claim C2 (resolution failure mapping): with a non-empty `emails` array,
an empty available-set yields 500 `{error: "No team configuration
available"}`, and a multi-record available-set with no id match yields 400
`{error: "Invalid or missing team selection"}`; in both cases no outbound
call is made. -/
theorem invite_resolution_failures (body : InviteBody) (env : Env)
    (st : Store) (outcome : FetchOutcome) (l : List String)
    (hE : body.emails = .arr l) (hNe : l ≠ []) :
    (getAllConfigs env st = [] →
      postInvite body env st outcome =
        (⟨500, .errMsg "No team configuration available"⟩, none)) ∧
    (1 < (getAllConfigs env st).length →
      (∀ t ∈ getAllConfigs env st, t.id ≠ body.teamId) →
      postInvite body env st outcome =
        (⟨400, .errMsg "Invalid or missing team selection"⟩, none)) := by
  have hInv : emailsInvalid body.emails = false := by
    rw [hE]
    simpa [emailsInvalid] using hNe
  constructor
  · intro hC
    simp [postInvite, hInv, hC]
  · intro hLen hNo
    have hFind : (getAllConfigs env st).find? (fun t => t.id == body.teamId) = none := by
      apply List.find?_eq_none.mpr
      intro t ht
      simpa using hNo t ht
    have hL1 : ((getAllConfigs env st).length == 1) = false := by
      simp only [beq_eq_false_iff_ne, ne_eq]
      omega
    have hL0 : ((getAllConfigs env st).length == 0) = false := by
      simp only [beq_eq_false_iff_ne, ne_eq]
      omega
    simp [postInvite, hInv, resolveConfig, hFind, hL1, hL0]

/-- Claim C3 (single-team convenience): with a non-empty `emails` array and
exactly one available configuration whose id differs from the supplied
`teamId`, resolution still picks that record and the dispatch carries its
token and accountId. -/
theorem single_team_convenience (body : InviteBody) (env : Env) (st : Store)
    (outcome : FetchOutcome) (l : List String) (c : Team)
    (hE : body.emails = .arr l) (hNe : l ≠ [])
    (hC : getAllConfigs env st = [c]) (hId : body.teamId ≠ c.id) :
    (postInvite body env st outcome).2 =
      some { emails := l, role := jsOrStr body.role "reader"
             resend := (body.resend).getD false
             token := c.token, accountId := c.accountId } := by
  have hInv : emailsInvalid body.emails = false := by
    rw [hE]
    simpa [emailsInvalid] using hNe
  have hFind : [c].find? (fun t => t.id == body.teamId) = none := by
    simp [List.find?_eq_none, Ne.symm hId]
  have hRes : resolveConfig (getAllConfigs env st) body.teamId = some c := by
    rw [hC]
    simp [resolveConfig, hFind]
  rw [hE] at hInv
  rw [hC] at hRes
  cases outcome with
  | thrown m =>
    simp [postInvite, hInv, hC, hRes, hE, sendInvitesApi, emailsList]
  | resp s t d =>
    by_cases hOk : responseOk s = true <;>
      simp [postInvite, hInv, hC, hRes, hE, sendInvitesApi, emailsList, hOk]

/-- Claim C5 (list ordering): `loadTeams` returns the stored records sorted
non-decreasing by name under the comparator used (absent names compare as
`""`), and every record with an empty or absent name sits strictly before
every record with a non-empty name. -/
theorem list_ordering (st : Store) :
    (loadTeams st).Perm (st.map Prod.snd) ∧
    (loadTeams st).Sorted (fun a b => nameLe a b = true) ∧
    (∀ i j (hi : i < (loadTeams st).length) (hj : j < (loadTeams st).length),
      nameKey ((loadTeams st).get ⟨i, hi⟩) = "" →
      nameKey ((loadTeams st).get ⟨j, hj⟩) ≠ "" → i < j) := by
  haveI : IsTrans Team (fun a b => nameLe a b = true) :=
    ⟨fun a b c => nameLe_trans a b c⟩
  haveI : IsTotal Team (fun a b => nameLe a b = true) :=
    ⟨fun a b => Bool.or_eq_true _ _ |>.mp (nameLe_total a b)⟩
  have hPerm : (loadTeams st).Perm (st.map Prod.snd) :=
    (List.perm_insertionSort _ _).trans
      ((List.perm_insertionSort _ st).map Prod.snd)
  have hPW : (loadTeams st).Sorted (fun a b => nameLe a b = true) :=
    List.sorted_insertionSort _ _
  refine ⟨hPerm, hPW, ?_⟩
  intro i j hi hj hie hjne
  by_contra hcon
  push_neg at hcon
  rcases lt_or_eq_of_le hcon with hlt | heq
  · have hle := (List.pairwise_iff_get.mp hPW) ⟨j, hj⟩ ⟨i, hi⟩ hlt
    have hle' : strLe (nameKey ((loadTeams st).get ⟨j, hj⟩))
        (nameKey ((loadTeams st).get ⟨i, hi⟩)) = true := hle
    rw [hie] at hle'
    exact hjne (strLe_empty_right hle')
  · subst heq
    exact hjne hie

/-- Claim C6 (idempotent delete): for a non-empty path id, the `DELETE
/api/teams/:id` route answers `{success:true}` both the first and the
second time, and on a well-formed store `loadTeams` no longer contains a
record with that id after the first call. -/
theorem idempotent_delete (x : String) (st : Store) (hx : x ≠ "")
    (hwf : StoreWF st) :
    deleteTeamRoute x st = (⟨200, .deleteOk⟩, deleteTeam x st) ∧
    deleteTeamRoute x (deleteTeam x st) =
      (⟨200, .deleteOk⟩, deleteTeam x (deleteTeam x st)) ∧
    ∀ t ∈ loadTeams (deleteTeam x st), t.id ≠ some x := by
  have hxb : (x == "") = false := by simpa using hx
  refine ⟨by simp [deleteTeamRoute, hxb], by simp [deleteTeamRoute, hxb], ?_⟩
  intro t ht hcontra
  rw [mem_loadTeams] at ht
  obtain ⟨e, he, rfl⟩ := List.mem_map.mp ht
  simp only [deleteTeam, kvDelete] at he
  have hpred := List.of_mem_filter he
  have hmem := List.mem_of_mem_filter he
  have hid := hwf e hmem
  rw [hid] at hcontra
  have hkey : e.1 = x := Option.some_injective _ hcontra
  simp [hkey] at hpred

/-- Claim C7 (upstream rejection normalization): when the upstream call
completes with a non-success HTTP status `s` (an HTTP status is never 0)
and body text `b`, `sendInvitesApi` returns — without throwing — the value
`{success:false, statusCode:s, error:b}`, and the route responds with
status `s`, `success:false`, and that value as `details`. -/
theorem upstream_rejection (body : InviteBody) (env : Env) (st : Store)
    (l : List String) (c : Team) (s : Nat) (b d : String)
    (hE : body.emails = .arr l) (hNe : l ≠ [])
    (hRes : resolveConfig (getAllConfigs env st) body.teamId = some c)
    (hS : responseOk s = false) (hS0 : s ≠ 0) :
    (sendInvitesApi l (jsOrStr body.role "reader") ((body.resend).getD false)
        c.token c.accountId (.resp s b d)).1 = .ok (.failed s b) ∧
    postInvite body env st (.resp s b d) =
      (⟨s, .inviteResult false c.name (.failed s b)⟩,
       some { emails := l, role := jsOrStr body.role "reader"
              resend := (body.resend).getD false
              token := c.token, accountId := c.accountId }) := by
  have hInv : emailsInvalid body.emails = false := by
    rw [hE]
    simpa [emailsInvalid] using hNe
  have hne : getAllConfigs env st ≠ [] := by
    intro h
    rw [h] at hRes
    simp [resolveConfig] at hRes
  have hL0 : ((getAllConfigs env st).length == 0) = false := by
    simp only [beq_eq_false_iff_ne, ne_eq]
    simpa [List.length_eq_zero] using hne
  have hs0b : (s == 0) = false := by simpa using hS0
  refine ⟨by simp [sendInvitesApi, hS], ?_⟩
  rw [hE] at hInv
  simp [postInvite, hInv, hE, hL0, hRes, sendInvitesApi, hS,
    SendResult.success, SendResult.statusCode, jsOrNat, hs0b, emailsList]

/-- Claim C8 (transport failure conversion): when the outbound call itself
throws, `sendInvitesApi` propagates the exception, and the route catches it
and responds 500 with `{success:false, team: <team name>, error: <message>}`
— the handler itself always produces a response. -/
theorem transport_failure (body : InviteBody) (env : Env) (st : Store)
    (l : List String) (c : Team) (msg : String)
    (hE : body.emails = .arr l) (hNe : l ≠ [])
    (hRes : resolveConfig (getAllConfigs env st) body.teamId = some c) :
    (sendInvitesApi l (jsOrStr body.role "reader") ((body.resend).getD false)
        c.token c.accountId (.thrown msg)).1 = .error msg ∧
    postInvite body env st (.thrown msg) =
      (⟨500, .inviteError c.name msg⟩,
       some { emails := l, role := jsOrStr body.role "reader"
              resend := (body.resend).getD false
              token := c.token, accountId := c.accountId }) := by
  have hInv : emailsInvalid body.emails = false := by
    rw [hE]
    simpa [emailsInvalid] using hNe
  have hne : getAllConfigs env st ≠ [] := by
    intro h
    rw [h] at hRes
    simp [resolveConfig] at hRes
  have hL0 : ((getAllConfigs env st).length == 0) = false := by
    simp only [beq_eq_false_iff_ne, ne_eq]
    simpa [List.length_eq_zero] using hne
  refine ⟨by simp [sendInvitesApi], ?_⟩
  rw [hE] at hInv
  simp [postInvite, hInv, hE, hL0, hRes, sendInvitesApi, emailsList]

/-- Claim C9 (team creation): with truthy `token` and `accountId`,
`POST /api/teams` answers 201 with the created record — carrying the
generated non-empty id, the supplied credentials, and `name || "Team"` —
persists it under that id, and a subsequent `loadTeams` contains it; with
`token` or `accountId` missing it answers 400 and the store is unchanged. -/
theorem team_creation (body : TeamBody) (freshId : String) (st : Store)
    (hF : freshId ≠ "") :
    ((truthyS body.token && truthyS body.accountId) = true →
      postTeams body freshId st =
        (⟨201, .teamCreated (mkSaved body freshId)⟩,
         kvSet freshId (mkSaved body freshId) st) ∧
      (mkSaved body freshId).id = some freshId ∧
      mkSaved body freshId ∈ loadTeams (postTeams body freshId st).2) ∧
    ((truthyS body.token && truthyS body.accountId) = false →
      postTeams body freshId st =
        (⟨400, .errMsg "Token and Account ID are required"⟩, st)) := by
  have hFb : (freshId == "") = false := by simpa using hF
  constructor
  · intro h
    have heq : postTeams body freshId st =
        (⟨201, .teamCreated (mkSaved body freshId)⟩,
         kvSet freshId (mkSaved body freshId) st) := by
      unfold postTeams
      rw [h]
      simp [saveTeam, mkSaved, truthyS, jsOrStr, hFb]
    refine ⟨heq, rfl, ?_⟩
    rw [heq]
    exact mem_loadTeams.mpr (mem_map_kvSet freshId (mkSaved body freshId) st)
  · intro h
    simp [postTeams, h]

/-- Claim C10 (add-team never overwrites): the `POST /api/teams` handler
ignores any client-supplied `id`, and since `saveTeam` keys the new record
by the freshly generated id, a call with a valid body extends the store
with a new entry and leaves every existing entry in place. -/
theorem add_team_never_overwrites (body : TeamBody) (freshId : String)
    (st : Store) (hT : (truthyS body.token && truthyS body.accountId) = true)
    (hF : freshId ≠ "") (hFresh : ∀ e ∈ st, e.1 ≠ freshId) :
    postTeams body freshId st = postTeams { body with id := none } freshId st ∧
    (postTeams body freshId st).2 = st ++ [(freshId, mkSaved body freshId)] ∧
    ∀ e ∈ st, e ∈ (postTeams body freshId st).2 := by
  have hFb : (freshId == "") = false := by simpa using hF
  have hAny : (st.any (fun e => e.1 == freshId)) = false := by
    rw [List.any_eq_false]
    intro e he
    simpa using hFresh e he
  have h2 : (postTeams body freshId st).2 =
      st ++ [(freshId, mkSaved body freshId)] := by
    unfold postTeams
    rw [hT]
    simp [saveTeam, truthyS, jsOrStr, hFb, kvSet, hAny, mkSaved]
  refine ⟨rfl, h2, fun e he => ?_⟩
  rw [h2]
  exact List.mem_append_left _ he

/-- Witness for C1 at a one-record store and at the empty store, with both
environment values set. -/
theorem fallback_exclusivity_witness :
    getAllConfigs envBoth stOne = loadTeams stOne ∧
    getAllConfigs envBoth [] = [fallbackRecord envBoth] := by
  refine ⟨(fallback_exclusivity envBoth stOne).1 (by decide), ?_⟩
  have h := (fallback_exclusivity envBoth ([] : Store)).2 rfl
  simpa [truthyS, envBoth] using h

/-- Witness for C2: empty store and a two-record store with an unmatched
teamId. -/
theorem invite_resolution_failures_witness :
    postInvite { emails := .arr ["x@y.com"] } {} [] (.thrown "boom") =
      (⟨500, .errMsg "No team configuration available"⟩, none) ∧
    postInvite { emails := .arr ["x@y.com"], teamId := some "zzz" } {} stTwo
        (.thrown "boom") =
      (⟨400, .errMsg "Invalid or missing team selection"⟩, none) := by
  constructor
  · exact (invite_resolution_failures { emails := .arr ["x@y.com"] } {} []
      (.thrown "boom") ["x@y.com"] rfl (by decide)).1 (by decide)
  · exact (invite_resolution_failures
      { emails := .arr ["x@y.com"], teamId := some "zzz" } {} stTwo
      (.thrown "boom") ["x@y.com"] rfl (by decide)).2 (by decide) (by decide)

/-- Witness for C3 at a one-record store and an unmatched teamId. -/
theorem single_team_convenience_witness :
    (postInvite { emails := .arr ["x@y.com"], teamId := some "nope" } {} stOne
        (.resp 200 "" "d")).2 =
      some { emails := ["x@y.com"], role := "reader", resend := false
             token := "t1", accountId := "a1" } :=
  single_team_convenience { emails := .arr ["x@y.com"], teamId := some "nope" }
    {} stOne (.resp 200 "" "d") ["x@y.com"] tAlpha rfl (by decide) (by decide)
    (by decide)

/-- Witness for C4 at the empty emails array. -/
theorem validation_before_dispatch_witness :
    postInvite { emails := .arr [] } {} stOne (.thrown "x") =
      (⟨400, .errMsg "Emails array is required"⟩, none) :=
  validation_before_dispatch { emails := .arr [] } {} stOne (.thrown "x")
    (by decide)

/-- Witness for C5 at a two-record store. -/
theorem list_ordering_witness :
    (loadTeams stTwo).Sorted (fun a b => nameLe a b = true) :=
  (list_ordering stTwo).2.1

/-- Witness for C6 at a two-record store. -/
theorem idempotent_delete_witness :
    deleteTeamRoute "id-alpha" stTwo =
      (⟨200, .deleteOk⟩, deleteTeam "id-alpha" stTwo) :=
  (idempotent_delete "id-alpha" stTwo (by decide)
    (by
      intro e he
      simp only [stTwo, List.mem_cons, List.not_mem_nil, or_false] at he
      rcases he with rfl | rfl <;> rfl)).1

/-- Witness for C7: upstream 403 with body "forbidden". -/
theorem upstream_rejection_witness :
    postInvite { emails := .arr ["x@y.com"], teamId := some "id-beta" } {}
        stTwo (.resp 403 "forbidden" "") =
      (⟨403, .inviteResult false (some "Beta") (.failed 403 "forbidden")⟩,
       some { emails := ["x@y.com"], role := "reader", resend := false
              token := "t2", accountId := "a2" }) :=
  (upstream_rejection { emails := .arr ["x@y.com"], teamId := some "id-beta" }
    {} stTwo ["x@y.com"] tBeta 403 "forbidden" "" rfl (by decide) (by decide)
    (by decide) (by decide)).2

/-- Witness for C8: a thrown transport error. -/
theorem transport_failure_witness :
    postInvite { emails := .arr ["x@y.com"], teamId := some "id-beta" } {}
        stTwo (.thrown "boom") =
      (⟨500, .inviteError (some "Beta") "boom"⟩,
       some { emails := ["x@y.com"], role := "reader", resend := false
              token := "t2", accountId := "a2" }) :=
  (transport_failure { emails := .arr ["x@y.com"], teamId := some "id-beta" }
    {} stTwo ["x@y.com"] tBeta "boom" rfl (by decide) (by decide)).2

/-- Witness for C9: creating a team in an empty store. -/
theorem team_creation_witness :
    postTeams bodyEx "uuid-1" [] =
      (⟨201, .teamCreated (mkSaved bodyEx "uuid-1")⟩,
       kvSet "uuid-1" (mkSaved bodyEx "uuid-1") []) ∧
    mkSaved bodyEx "uuid-1" ∈ loadTeams (postTeams bodyEx "uuid-1" []).2 := by
  have h := (team_creation bodyEx "uuid-1" [] (by decide)).1 (by decide)
  exact ⟨h.1, h.2.2⟩

/-- Witness for C10: adding a team to a non-empty store. -/
theorem add_team_never_overwrites_witness :
    (postTeams bodyEx "uuid-2" stOne).2 =
      stOne ++ [("uuid-2", mkSaved bodyEx "uuid-2")] :=
  (add_team_never_overwrites bodyEx "uuid-2" stOne (by decide) (by decide)
    (by decide)).2.1
